import Mathlib

/-!
Shallow embedding of src/create-icons.py, a script that procedurally draws
two receipt-icon PNG images with PIL and writes them to public/icons/.

Modelling conventions:
* Python floats are modelled by exact arithmetic.  Every float expression
  in the script has the form c * (size / 192) or w * c with c one of the
  decimal constants 1.2, 0.6, 0.7, so each value fed to int() is an exact
  rational with denominator 192, 5 or 10, and int() truncates the exact
  quotient toward zero (pyIntDiv below).  At the sizes the concrete
  theorems evaluate (1, 8, 16, 192, 512) the IEEE-754 double computation
  produces the same truncated integers, which was checked value by value.
* Python x // y on integers is floor division (Int.fdiv).
* A PIL image of mode RGBA is a width, a height, a mode tag and a total
  pixel map; ImageDraw.rectangle fills the inclusive box [x0,x1] x [y0,y1]
  and then paints the one-pixel border with the outline colour when one is
  given; drawing is clipped to the canvas.  Drawing on an RGBA image with an
  RGBA ink writes the raw ink value (no compositing).
* Text rendering depends on the font, an external collaborator: a Font is
  the bounding box reported by draw.textbbox((0,0), "R", font) together
  with an abstract coverage mask relative to the draw anchor.  The font
  environment (outcome of the truetype load attempt, plus the default
  font) is a parameter of the renderer.
-/

/-- Python int() applied to the exact quotient a / b with b > 0:
truncation toward zero. -/
def pyIntDiv (a b : ℤ) : ℤ := Int.tdiv a b

/-- An RGBA colour value. -/
structure Color where
  r : ℕ
  g : ℕ
  b : ℕ
  a : ℕ
deriving DecidableEq, Repr

/-- Background and receipt-line ink (26, 26, 30, 255) from lines 9 and 39. -/
def darkColor : Color := ⟨26, 26, 30, 255⟩

/-- White paper fill (255, 255, 255, 255) from line 23. -/
def whiteColor : Color := ⟨255, 255, 255, 255⟩

/-- Light gray paper outline (200, 200, 200, 255) from line 23. -/
def outlineColor : Color := ⟨200, 200, 200, 255⟩

/-- Scan-button and glyph blue (0, 122, 255, 255) from lines 48 and 67. -/
def blueColor : Color := ⟨0, 122, 255, 255⟩

/-- Translucent glyph shadow (0, 0, 0, 100) from line 66. -/
def shadowColor : Color := ⟨0, 0, 0, 100⟩

/-- An axis-aligned rectangle given by the two inclusive PIL corner
coordinates [x0, y0, x1, y1]. -/
structure Rect where
  x0 : ℤ
  y0 : ℤ
  x1 : ℤ
  y1 : ℤ
deriving DecidableEq, Repr

/-- PIL rectangle coordinates are accepted (Pillow raises on x1 < x0). -/
def Rect.wellOrdered (r : Rect) : Prop := r.x0 ≤ r.x1 ∧ r.y0 ≤ r.y1

/-- Rectangle r lies entirely inside rectangle s (inclusive bounds). -/
def Rect.inside (r s : Rect) : Prop :=
  s.x0 ≤ r.x0 ∧ r.x1 ≤ s.x1 ∧ s.y0 ≤ r.y0 ∧ r.y1 ≤ s.y1

instance (r : Rect) : Decidable r.wellOrdered := by
  unfold Rect.wellOrdered; infer_instance

instance (r s : Rect) : Decidable (r.inside s) := by
  unfold Rect.inside; infer_instance

/-- A raster image buffer: PIL Image restricted to what the script uses. -/
structure Img where
  width : ℤ
  height : ℤ
  mode : String
  pix : ℤ → ℤ → Color

/-- Image.new(mode, (w, h), color): constant canvas. -/
def Img.new (w h : ℤ) (c : Color) : Img :=
  { width := w, height := h, mode := "RGBA", pix := fun _ _ => c }

/-- Membership of a pixel in the drawable area of the canvas. -/
def Img.inCanvas (img : Img) (x y : ℤ) : Prop :=
  0 ≤ x ∧ x < img.width ∧ 0 ≤ y ∧ y < img.height

instance (img : Img) (x y : ℤ) : Decidable (img.inCanvas x y) := by
  unfold Img.inCanvas; infer_instance

/-- ImageDraw.rectangle(r, fill=c): fill the inclusive box, clipped. -/
def Img.fillRect (img : Img) (r : Rect) (c : Color) : Img :=
  { img with pix := fun x y =>
      if r.x0 ≤ x ∧ x ≤ r.x1 ∧ r.y0 ≤ y ∧ y ≤ r.y1 ∧ img.inCanvas x y then c
      else img.pix x y }

/-- The one-pixel border of the inclusive box, painted by outline=c. -/
def Img.outlineRect (img : Img) (r : Rect) (c : Color) : Img :=
  { img with pix := fun x y =>
      if r.x0 ≤ x ∧ x ≤ r.x1 ∧ r.y0 ≤ y ∧ y ≤ r.y1 ∧
          (x = r.x0 ∨ x = r.x1 ∨ y = r.y0 ∨ y = r.y1) ∧ img.inCanvas x y then c
      else img.pix x y }

/-- ImageDraw.rectangle with a fill and an optional outline. -/
def Img.rect (img : Img) (r : Rect) (fill : Color) (outl : Option Color) : Img :=
  match outl with
  | none => img.fillRect r fill
  | some c => (img.fillRect r fill).outlineRect r c

/-- A font as the script observes it: the bounding box that
draw.textbbox((0,0), "R", font=font) reports, and the glyph coverage mask
relative to the draw anchor. -/
structure Font where
  bx0 : ℤ
  by0 : ℤ
  bx1 : ℤ
  by1 : ℤ
  mask : ℤ → ℤ → Bool

/-- ImageDraw.text((tx, ty), "R", fill=c, font=f): set the ink on the
pixels the glyph mask covers, clipped to the canvas. -/
def Img.text (img : Img) (tx ty : ℤ) (f : Font) (c : Color) : Img :=
  { img with pix := fun x y =>
      if f.mask (x - tx) (y - ty) = true ∧ img.inCanvas x y then c
      else img.pix x y }

/-- The font environment: the outcome of
ImageFont.truetype("arial.ttf", n) as a function of the requested point
size (none models the exception branch), and ImageFont.load_default(). -/
structure FontEnv where
  arial : ℤ → Option Font
  deflt : Font

/-! Geometry of create_receipt_icon, line by line (src/create-icons.py). -/

/-- Lines 13 and 16: paper_margin = int(24 * scale) with
scale = size / 192, i.e. the truncation of 24 * size / 192. -/
def paper_margin (size : ℤ) : ℤ := pyIntDiv (24 * size) 192

/-- Line 17: paper_width = size - 2 * paper_margin. -/
def paper_width (size : ℤ) : ℤ := size - 2 * paper_margin size

/-- Line 18: paper_height = int(paper_width * 1.2), the truncation of
paper_width * 6 / 5. -/
def paper_height (size : ℤ) : ℤ := pyIntDiv (6 * paper_width size) 5

/-- Line 19: paper_y = (size - paper_height) // 2. -/
def paper_y (size : ℤ) : ℤ := Int.fdiv (size - paper_height size) 2

/-- Line 22: the paper rectangle passed to draw.rectangle. -/
def paperRect (size : ℤ) : Rect :=
  ⟨paper_margin size, paper_y size,
   paper_margin size + paper_width size, paper_y size + paper_height size⟩

/-- Line 26: line_spacing = int(16 * scale). -/
def line_spacing (size : ℤ) : ℤ := pyIntDiv (16 * size) 192

/-- Line 27: line_margin = int(12 * scale). -/
def line_margin (size : ℤ) : ℤ := pyIntDiv (12 * size) 192

/-- Line 28: line_start = paper_y + int(20 * scale). -/
def line_start (size : ℤ) : ℤ := paper_y size + pyIntDiv (20 * size) 192

/-- Line 31: y = line_start + i * line_spacing for candidate line i. -/
def lineY (size : ℤ) (i : ℕ) : ℤ := line_start size + (i : ℤ) * line_spacing size

/-- Line 32: the break threshold paper_y + paper_height - int(40 * scale). -/
def line_cutoff (size : ℤ) : ℤ :=
  paper_y size + paper_height size - pyIntDiv (40 * size) 192

/-- Line 34: the full line width paper_width - 2 * line_margin. -/
def line_width_full (size : ℤ) : ℤ := paper_width size - 2 * line_margin size

/-- Lines 34-36: the width of line i; line 4 is int(line_width * 0.6),
the truncation of line_width * 3 / 5. -/
def line_width (size : ℤ) (i : ℕ) : ℤ :=
  if i = 4 then pyIntDiv (3 * line_width_full size) 5 else line_width_full size

/-- Lines 37-38: the rectangle drawn for candidate line i. -/
def lineRect (size : ℤ) (i : ℕ) : Rect :=
  ⟨paper_margin size + line_margin size, lineY size i,
   paper_margin size + line_margin size + line_width size i,
   lineY size i + pyIntDiv (2 * size) 192⟩

/-- Lines 30-39: the for-loop with break, peeling candidate indices off the
front of the remaining index list and stopping at the first index whose
y exceeds the cutoff. -/
def linesGo (size : ℤ) : List ℕ → List (ℕ × Rect)
  | [] => []
  | i :: rest =>
      if lineY size i > line_cutoff size then []
      else (i, lineRect size i) :: linesGo size rest

/-- The indexed rectangles actually drawn by the for i in range(6) loop. -/
def lineRects (size : ℤ) : List (ℕ × Rect) := linesGo size (List.range 6)

/-- Line 42: button_width = int(paper_width * 0.7), the truncation of
paper_width * 7 / 10. -/
def button_width (size : ℤ) : ℤ := pyIntDiv (7 * paper_width size) 10

/-- Line 43: button_height = int(20 * scale). -/
def button_height (size : ℤ) : ℤ := pyIntDiv (20 * size) 192

/-- Line 44: button_x = paper_margin + (paper_width - button_width) // 2. -/
def button_x (size : ℤ) : ℤ :=
  paper_margin size + Int.fdiv (paper_width size - button_width size) 2

/-- Line 45: button_y = paper_y + paper_height - int(35 * scale). -/
def button_y (size : ℤ) : ℤ :=
  paper_y size + paper_height size - pyIntDiv (35 * size) 192

/-- Line 47: the scan-button rectangle. -/
def buttonRect (size : ℤ) : Rect :=
  ⟨button_x size, button_y size,
   button_x size + button_width size, button_y size + button_height size⟩

/-- Line 52: font_size = int(48 * scale). -/
def font_size (size : ℤ) : ℤ := pyIntDiv (48 * size) 192

/-- Lines 51-55: try truetype("arial.ttf", font_size) except load_default. -/
def selectFont (env : FontEnv) (size : ℤ) : Font :=
  match env.arial (font_size size) with
  | some f => f
  | none => env.deflt

/-- Line 60: text_width = bbox[2] - bbox[0]. -/
def text_width (f : Font) : ℤ := f.bx1 - f.bx0

/-- Line 61: text_height = bbox[3] - bbox[1]. -/
def text_height (f : Font) : ℤ := f.by1 - f.by0

/-- Line 62: text_x = (size - text_width) // 2. -/
def text_x (size : ℤ) (f : Font) : ℤ := Int.fdiv (size - text_width f) 2

/-- Line 63: text_y = (size - text_height) // 2 - int(10 * scale). -/
def text_y (size : ℤ) (f : Font) : ℤ :=
  Int.fdiv (size - text_height f) 2 - pyIntDiv (10 * size) 192

/-- Lines 9-48: canvas, paper with outline, receipt lines, scan button.
The loop conditions do not read the canvas, so the drawn line rectangles
are precomputed by lineRects and folded over the image. -/
def drawBase (size : ℤ) : Img :=
  let img := Img.new size size darkColor
  let img := img.rect (paperRect size) whiteColor (some outlineColor)
  let img := (lineRects size).foldl (fun im p => im.fillRect p.2 darkColor) img
  img.fillRect (buttonRect size) blueColor

/-- Lines 58-67: measure the glyph, draw the (+2, +2) shadow, then the
opaque blue foreground. -/
def drawGlyphs (img : Img) (size : ℤ) (f : Font) : Img :=
  let tx := text_x size f
  let ty := text_y size f
  let img := img.text (tx + 2) (ty + 2) f shadowColor
  img.text tx ty f blueColor

/-- Lines 7-69: create_receipt_icon(size) under a font environment. -/
def create_receipt_icon (env : FontEnv) (size : ℤ) : Img :=
  drawGlyphs (drawBase size) size (selectFont env size)

/-! The top-level driver, lines 71-82, as a trace of external effects. -/

/-- One observable effect of the driver. -/
inductive Event where
  | makedirs (path : String) (existOk : Bool)
  | save (img : Img) (path : String) (format : String)
  | message (msg : String)

/-- Lines 72-82: the effect trace of the script body, in program order. -/
def mainEvents (env : FontEnv) : List Event :=
  [Event.makedirs "public/icons" true,
   Event.save (create_receipt_icon env 192) "public/icons/icon-192.png" "PNG",
   Event.save (create_receipt_icon env 512) "public/icons/icon-512.png" "PNG",
   Event.message "Icons created successfully!"]

/-- A filesystem state: the directories that exist and the files written,
each with its format tag. -/
structure FS where
  dirs : List String
  files : List (String × String)

/-- The directory part of a slash-separated path (os.path.dirname). -/
def parentDir (p : String) : String :=
  String.mk (((p.data.reverse.dropWhile (fun c => c ≠ '/')).drop 1).reverse)

/-- Semantics of one driver effect: makedirs with exist_ok never fails and
is idempotent; Image.save requires the containing directory and records
the file; printing does not change the filesystem. -/
def stepFS (fs : FS) : Event → Except String FS
  | Event.makedirs p existOk =>
      if p ∈ fs.dirs then
        if existOk then Except.ok fs else Except.error "FileExistsError"
      else Except.ok { fs with dirs := p :: fs.dirs }
  | Event.save _ p fmt =>
      if parentDir p ∈ fs.dirs then
        Except.ok { fs with files := (p, fmt) :: fs.files }
      else Except.error "FileNotFoundError"
  | Event.message _ => Except.ok fs

/-- Run a trace of effects from an initial filesystem state. -/
def runEvents (fs : FS) : List Event → Except String FS
  | [] => Except.ok fs
  | e :: es => match stepFS fs e with
      | Except.ok fs' => runEvents fs' es
      | Except.error msg => Except.error msg

/-! Concrete font environments used to instantiate the theorems below. -/

/-- A font with an empty glyph mask and a degenerate bounding box. -/
def emptyFont : Font := ⟨0, 0, 0, 0, fun _ _ => false⟩

/-- A font whose glyph covers exactly a 6 x 11 box at the anchor, the
extent of the PIL default bitmap font's capital letter. -/
def boxFont : Font :=
  ⟨0, 0, 6, 11, fun dx dy => decide (0 ≤ dx ∧ dx < 6 ∧ 0 ≤ dy ∧ dy < 11)⟩

/-- An environment in which the truetype load always fails and the default
font is the empty-glyph font. -/
def emptyEnv : FontEnv := ⟨fun _ => none, emptyFont⟩

/-- An environment in which the truetype load always fails and the default
font is the box-glyph font. -/
def noArialEnv : FontEnv := ⟨fun _ => none, boxFont⟩

/-! Arithmetic facts about the geometry, used by several theorems below.
All divisors are positive and all dividends the script produces are
nonnegative, so truncation and floor division both coincide with
Euclidean division, which omega understands. -/

theorem pyIntDiv_eq_ediv {a b : ℤ} (ha : 0 ≤ a) (hb : 0 ≤ b) :
    pyIntDiv a b = a / b := Int.tdiv_eq_ediv ha hb

theorem pyIntDiv_scale_eq (c size : ℤ) (hc : 0 ≤ c) (hs : 0 ≤ size) :
    pyIntDiv (c * size) 192 = c * size / 192 :=
  pyIntDiv_eq_ediv (mul_nonneg hc hs) (by omega)

theorem paper_margin_eq (size : ℤ) (hs : 0 ≤ size) :
    paper_margin size = 24 * size / 192 :=
  pyIntDiv_scale_eq 24 size (by omega) hs

theorem paper_width_def (size : ℤ) :
    paper_width size = size - 2 * paper_margin size := rfl

theorem paper_width_nonneg (size : ℤ) (hs : 0 ≤ size) :
    0 ≤ paper_width size := by
  rw [paper_width_def, paper_margin_eq size hs]; omega

theorem paper_height_eq (size : ℤ) (hs : 0 ≤ size) :
    paper_height size = 6 * paper_width size / 5 :=
  pyIntDiv_eq_ediv (by have := paper_width_nonneg size hs; omega) (by omega)

theorem paper_height_nonneg (size : ℤ) (hs : 0 ≤ size) :
    0 ≤ paper_height size := by
  rw [paper_height_eq size hs]; have := paper_width_nonneg size hs; omega

theorem line_margin_eq (size : ℤ) (hs : 0 ≤ size) :
    line_margin size = 12 * size / 192 :=
  pyIntDiv_scale_eq 12 size (by omega) hs

theorem line_margin_nonneg (size : ℤ) (hs : 0 ≤ size) :
    0 ≤ line_margin size := by rw [line_margin_eq size hs]; omega

theorem line_spacing_nonneg (size : ℤ) (hs : 0 ≤ size) :
    0 ≤ line_spacing size := by
  have h : line_spacing size = 16 * size / 192 := pyIntDiv_scale_eq 16 size (by omega) hs
  omega

theorem line_width_full_nonneg (size : ℤ) (hs : 0 ≤ size) :
    0 ≤ line_width_full size := by
  have h1 := paper_margin_eq size hs
  have h2 := line_margin_eq size hs
  unfold line_width_full
  rw [paper_width_def, h1, h2]; omega

theorem line_width_bounds (size : ℤ) (i : ℕ) (hs : 0 ≤ size) :
    0 ≤ line_width size i ∧ line_width size i ≤ line_width_full size := by
  have hf := line_width_full_nonneg size hs
  unfold line_width
  by_cases h4 : i = 4
  · simp only [h4, if_pos rfl]
    rw [pyIntDiv_eq_ediv (by omega) (by omega)]; omega
  · simp only [if_neg h4]; omega

theorem button_width_eq (size : ℤ) (hs : 0 ≤ size) :
    button_width size = 7 * paper_width size / 10 :=
  pyIntDiv_eq_ediv (by have := paper_width_nonneg size hs; omega) (by omega)

/-- C10: for every positive size the scan button stays inside the paper
region horizontally, and its bottom edge never exceeds the paper's bottom
edge, because int(35 * scale) is at least int(20 * scale). -/
theorem C10_button_inside (size : ℤ) (hs : 0 < size) :
    paper_margin size ≤ button_x size ∧
    button_x size + button_width size ≤ paper_margin size + paper_width size ∧
    button_y size + button_height size ≤ paper_y size + paper_height size ∧
    pyIntDiv (20 * size) 192 ≤ pyIntDiv (35 * size) 192 := by
  have hs0 : 0 ≤ size := le_of_lt hs
  have hpw := paper_width_nonneg size hs0
  have hbw := button_width_eq size hs0
  have hbx : button_x size =
      paper_margin size + (paper_width size - button_width size) / 2 := by
    unfold button_x
    rw [Int.fdiv_eq_ediv _ (by omega)]
  have h20 := pyIntDiv_scale_eq 20 size (by omega) hs0
  have h35 := pyIntDiv_scale_eq 35 size (by omega) hs0
  refine ⟨?_, ?_, ?_, ?_⟩
  · rw [hbx, hbw]; omega
  · rw [hbx, hbw]; omega
  · unfold button_y button_height; rw [h20, h35]; omega
  · rw [h20, h35]; omega

/-- C10 witness: the button bounds at the concrete requested size 192. -/
theorem C10_button_inside_witness :
    0 < (192 : ℤ) ∧
    (paper_margin 192 ≤ button_x 192 ∧
     button_x 192 + button_width 192 ≤ paper_margin 192 + paper_width 192 ∧
     button_y 192 + button_height 192 ≤ paper_y 192 + paper_height 192 ∧
     pyIntDiv (20 * 192) 192 ≤ pyIntDiv (35 * 192) 192) :=
  ⟨by decide, C10_button_inside 192 (by decide)⟩

/-! The receipt-line loop: soundness and completeness of the break. -/

theorem lineY_mono (size : ℤ) (hs : 0 ≤ size) {i j : ℕ} (hij : i ≤ j) :
    lineY size i ≤ lineY size j := by
  unfold lineY
  have hsp := line_spacing_nonneg size hs
  have hij' : (i : ℤ) ≤ (j : ℤ) := by exact_mod_cast hij
  have := mul_le_mul_of_nonneg_right hij' hsp
  linarith

theorem linesGo_sound (size : ℤ) (l : List ℕ) (j : ℕ) (r : Rect)
    (h : (j, r) ∈ linesGo size l) :
    j ∈ l ∧ lineY size j ≤ line_cutoff size ∧ r = lineRect size j := by
  induction l with
  | nil => simp [linesGo] at h
  | cons i rest ih =>
    unfold linesGo at h
    by_cases hc : lineY size i > line_cutoff size
    · rw [if_pos hc] at h
      simp at h
    · rw [if_neg hc] at h
      rcases List.mem_cons.mp h with h1 | h2
      · have hj : j = i ∧ r = lineRect size i := by
          constructor <;> [exact congrArg Prod.fst h1; exact congrArg Prod.snd h1]
        obtain ⟨hj, hr⟩ := hj
        subst hj
        exact ⟨List.mem_cons_self _ _, not_lt.mp hc, hr⟩
      · obtain ⟨h2a, h2b⟩ := ih h2
        exact ⟨List.mem_cons_of_mem _ h2a, h2b⟩

theorem linesGo_complete (size : ℤ) (j : ℕ) :
    ∀ (len a : ℕ), a ≤ j → j < a + len →
    (∀ k, a ≤ k → k ≤ j → lineY size k ≤ line_cutoff size) →
    (j, lineRect size j) ∈ linesGo size (List.range' a len) := by
  intro len
  induction len with
  | zero => intro a _ h2 _; omega
  | succ n ih =>
    intro a haj hjlen hall
    rw [List.range'_succ]
    unfold linesGo
    rw [if_neg (not_lt.mpr (hall a le_rfl haj))]
    by_cases hja : j = a
    · subst hja; exact List.mem_cons_self _ _
    · exact List.mem_cons_of_mem _
        (ih (a + 1) (by omega) (by omega) (fun k hk1 hk2 => hall k (by omega) hk2))

theorem lineRects_mem_iff (size : ℤ) (hs : 0 ≤ size) (j : ℕ) :
    (j, lineRect size j) ∈ lineRects size ↔
      j < 6 ∧ lineY size j ≤ line_cutoff size := by
  constructor
  · intro h
    obtain ⟨h1, h2, _⟩ := linesGo_sound size (List.range 6) j _ h
    exact ⟨List.mem_range.mp h1, h2⟩
  · rintro ⟨hj6, hyj⟩
    rw [lineRects, List.range_eq_range']
    exact linesGo_complete size j 6 0 (Nat.zero_le _) (by omega)
      (fun k _ hk => le_trans (lineY_mono size hs hk) hyj)

/-- C4: for every positive size, a candidate line is drawn exactly when its
y-position does not exceed the cutoff paper_bottom - int(40 * scale) — the
loop stops at the first index whose y-position exceeds it, omitting that
line and all later candidates (y is monotone in the index) — and every
drawn line rectangle lies entirely inside the paper rectangle. -/
theorem C4_line_loop (size : ℤ) (hs : 0 < size) :
    (∀ i : ℕ, (i, lineRect size i) ∈ lineRects size ↔
        i < 6 ∧ lineY size i ≤ line_cutoff size) ∧
    (∀ p ∈ lineRects size, p.1 < 6 ∧ p.2 = lineRect size p.1) ∧
    (∀ p ∈ lineRects size, p.2.inside (paperRect size)) := by
  have hs0 : 0 ≤ size := le_of_lt hs
  refine ⟨fun i => lineRects_mem_iff size hs0 i, ?_, ?_⟩
  · intro p hp
    obtain ⟨h1, _, h3⟩ := linesGo_sound size (List.range 6) p.1 p.2 hp
    exact ⟨List.mem_range.mp h1, h3⟩
  · intro p hp
    obtain ⟨_, hy, hr⟩ := linesGo_sound size (List.range 6) p.1 p.2 hp
    rw [hr]
    have hlm := line_margin_nonneg size hs0
    have hlw := line_width_bounds size p.1 hs0
    have hc20 : 0 ≤ pyIntDiv (20 * size) 192 := by
      rw [pyIntDiv_scale_eq 20 size (by omega) hs0]; omega
    have hc2_le : pyIntDiv (2 * size) 192 ≤ pyIntDiv (40 * size) 192 := by
      rw [pyIntDiv_scale_eq 2 size (by omega) hs0,
        pyIntDiv_scale_eq 40 size (by omega) hs0]
      omega
    have hprod : 0 ≤ (p.1 : ℤ) * line_spacing size :=
      mul_nonneg (Int.natCast_nonneg _) (line_spacing_nonneg size hs0)
    have hfull : line_width_full size = paper_width size - 2 * line_margin size := rfl
    unfold line_cutoff at hy
    refine ⟨?_, ?_, ?_, ?_⟩
    · show paper_margin size ≤ paper_margin size + line_margin size
      omega
    · show paper_margin size + line_margin size + line_width size p.1 ≤
        paper_margin size + paper_width size
      omega
    · show paper_y size ≤ lineY size p.1
      unfold lineY line_start
      linarith
    · show lineY size p.1 + pyIntDiv (2 * size) 192 ≤
        paper_y size + paper_height size
      linarith

/-- C4 witness: at size 192 line 4 is drawn, via the loop theorem. -/
theorem C4_line_loop_witness : ((4 : ℕ), lineRect 192 4) ∈ lineRects 192 :=
  ((C4_line_loop 192 (by decide)).1 4).mpr (by decide)

/-- C3: at both requested sizes all six candidate lines are drawn with
distinct indices; the one at index 4 has width int(full_width * 0.6) and
every other drawn line, index 5 included, has the full width
paper_width - 2 * line_margin; the two widths differ, so exactly one drawn
line is short. -/
theorem C3_short_line :
    ((lineRects 192).map Prod.fst = [0, 1, 2, 3, 4, 5] ∧
     (∀ p ∈ lineRects 192, p.2.x1 - p.2.x0 =
        if p.1 = 4 then pyIntDiv (3 * line_width_full 192) 5
        else line_width_full 192) ∧
     pyIntDiv (3 * line_width_full 192) 5 = 72 ∧ line_width_full 192 = 120) ∧
    ((lineRects 512).map Prod.fst = [0, 1, 2, 3, 4, 5] ∧
     (∀ p ∈ lineRects 512, p.2.x1 - p.2.x0 =
        if p.1 = 4 then pyIntDiv (3 * line_width_full 512) 5
        else line_width_full 512) ∧
     pyIntDiv (3 * line_width_full 512) 5 = 192 ∧ line_width_full 512 = 320) := by
  decide

/-- C1 counterexample: at the requested size 192 the computed paper height
is 172, but rounding width * 1.2 to the nearest integer gives
round(144 * 1.2) = round(172.8) = 173; the code truncates instead. -/
theorem C1_counterexample :
    paper_height 192 ≠ round ((paper_width 192 : ℚ) * 1.2) := by
  have h1 : paper_width 192 = 144 := by decide
  have h2 : paper_height 192 = 172 := by decide
  rw [h1, h2]
  norm_num [round_eq]

/-- C1 (amended): for both requested sizes 192 and 512 the paper width
equals size - 2 * round(24 * size / 192), and the paper height is the
truncation (floor, not round-to-nearest) of width * 1.2. -/
theorem C1_paper_dims :
    (paper_width 192 = 192 - 2 * round ((24 * 192 : ℚ) / 192) ∧
     paper_height 192 = ⌊(paper_width 192 : ℚ) * 1.2⌋ ∧
     paper_height 192 = 172) ∧
    (paper_width 512 = 512 - 2 * round ((24 * 512 : ℚ) / 192) ∧
     paper_height 512 = ⌊(paper_width 512 : ℚ) * 1.2⌋ ∧
     paper_height 512 = 460) := by
  have h1 : paper_width 192 = 144 := by decide
  have h2 : paper_height 192 = 172 := by decide
  have h3 : paper_width 512 = 384 := by decide
  have h4 : paper_height 512 = 460 := by decide
  rw [h1, h2, h3, h4]
  norm_num [round_eq, Int.floor_eq_iff]

/-! Preservation of the buffer dimensions and mode by the drawing ops. -/

theorem rect_dims (img : Img) (r : Rect) (c : Color) (o : Option Color) :
    (img.rect r c o).width = img.width ∧ (img.rect r c o).height = img.height ∧
    (img.rect r c o).mode = img.mode := by
  cases o <;> exact ⟨rfl, rfl, rfl⟩

theorem foldl_fill_dims (l : List (ℕ × Rect)) (img : Img) :
    ((l.foldl (fun im p => im.fillRect p.2 darkColor) img)).width = img.width ∧
    ((l.foldl (fun im p => im.fillRect p.2 darkColor) img)).height = img.height ∧
    ((l.foldl (fun im p => im.fillRect p.2 darkColor) img)).mode = img.mode := by
  induction l generalizing img with
  | nil => exact ⟨rfl, rfl, rfl⟩
  | cons p rest ih => exact ih (img.fillRect p.2 darkColor)

theorem create_receipt_icon_dims (env : FontEnv) (size : ℤ) :
    (create_receipt_icon env size).width = size ∧
    (create_receipt_icon env size).height = size ∧
    (create_receipt_icon env size).mode = "RGBA" := by
  have hbase := foldl_fill_dims (lineRects size)
    ((Img.new size size darkColor).rect (paperRect size) whiteColor (some outlineColor))
  exact ⟨hbase.1, hbase.2.1, hbase.2.2⟩

/-- C6: for both requested sizes 192 and 512 the produced buffer has width
and height equal to the requested size and carries an alpha channel
(RGBA mode), for every font environment. -/
theorem C6_requested_sizes (env : FontEnv) :
    (create_receipt_icon env 192).width = 192 ∧
    (create_receipt_icon env 192).height = 192 ∧
    (create_receipt_icon env 192).mode = "RGBA" ∧
    (create_receipt_icon env 512).width = 512 ∧
    (create_receipt_icon env 512).height = 512 ∧
    (create_receipt_icon env 512).mode = "RGBA" := by
  obtain ⟨a, b, c⟩ := create_receipt_icon_dims env 192
  obtain ⟨d, e, f⟩ := create_receipt_icon_dims env 512
  exact ⟨a, b, c, d, e, f⟩

/-- C8: determinism — the renderer is a pure function of the size and the
font environment, so two runs with the same size and the same outcome of
the font-load attempt and font metrics agree on every pixel and on the
buffer dimensions. -/
theorem C8_deterministic (e1 e2 : FontEnv) (size : ℤ) (h : e1 = e2) (x y : ℤ) :
    (create_receipt_icon e1 size).pix x y = (create_receipt_icon e2 size).pix x y ∧
    (create_receipt_icon e1 size).width = (create_receipt_icon e2 size).width ∧
    (create_receipt_icon e1 size).height = (create_receipt_icon e2 size).height := by
  subst h
  exact ⟨rfl, rfl, rfl⟩

/-- C8 witness: two runs at size 192 under the same environment agree at
the origin pixel. -/
theorem C8_deterministic_witness :
    (create_receipt_icon emptyEnv 192).pix 0 0 =
      (create_receipt_icon emptyEnv 192).pix 0 0 :=
  (C8_deterministic emptyEnv emptyEnv 192 rfl 0 0).1

/-- C5: when the truetype load of "arial.ttf" at point size
int(48 * scale) fails, the renderer substitutes the default font and
completes normally, returning a size-by-size RGBA buffer — the failure is
not propagated. -/
theorem C5_font_fallback (env : FontEnv) (size : ℤ)
    (h : env.arial (font_size size) = none) :
    create_receipt_icon env size = drawGlyphs (drawBase size) size env.deflt ∧
    (create_receipt_icon env size).width = size ∧
    (create_receipt_icon env size).height = size ∧
    (create_receipt_icon env size).mode = "RGBA" := by
  have hsel : selectFont env size = env.deflt := by
    unfold selectFont
    rw [h]
  have hdims := create_receipt_icon_dims env size
  refine ⟨?_, hdims.1, hdims.2.1, hdims.2.2⟩
  unfold create_receipt_icon
  rw [hsel]

/-- C5 witness: an environment whose truetype load fails at size 192. -/
theorem C5_font_fallback_witness :
    emptyEnv.arial (font_size 192) = none ∧
    create_receipt_icon emptyEnv 192 = drawGlyphs (drawBase 192) 192 emptyEnv.deflt :=
  ⟨rfl, (C5_font_fallback emptyEnv 192 rfl).1⟩

/-- C9: totality — for every positive size the renderer performs no
failing operation: every rectangle handed to ImageDraw has ordered
coordinates (the only drawing precondition), and the result is always a
size-by-size RGBA buffer, with possibly degenerate geometry at small
sizes. -/
theorem C9_total (env : FontEnv) (size : ℤ) (hs : 0 < size) :
    (create_receipt_icon env size).width = size ∧
    (create_receipt_icon env size).height = size ∧
    (create_receipt_icon env size).mode = "RGBA" ∧
    (paperRect size).wellOrdered ∧
    (∀ p ∈ lineRects size, p.2.wellOrdered) ∧
    (buttonRect size).wellOrdered := by
  have hs0 : (0 : ℤ) ≤ size := le_of_lt hs
  have hdims := create_receipt_icon_dims env size
  have hpw := paper_width_nonneg size hs0
  have hph := paper_height_nonneg size hs0
  refine ⟨hdims.1, hdims.2.1, hdims.2.2, ⟨?_, ?_⟩, ?_, ⟨?_, ?_⟩⟩
  · show paper_margin size ≤ paper_margin size + paper_width size
    omega
  · show paper_y size ≤ paper_y size + paper_height size
    omega
  · intro p hp
    obtain ⟨_, _, hr⟩ := linesGo_sound size (List.range 6) p.1 p.2 hp
    rw [hr]
    have hlw := line_width_bounds size p.1 hs0
    have hc2 : 0 ≤ pyIntDiv (2 * size) 192 := by
      rw [pyIntDiv_scale_eq 2 size (by omega) hs0]; omega
    refine ⟨?_, ?_⟩
    · show paper_margin size + line_margin size ≤
        paper_margin size + line_margin size + line_width size p.1
      omega
    · show lineY size p.1 ≤ lineY size p.1 + pyIntDiv (2 * size) 192
      omega
  · show button_x size ≤ button_x size + button_width size
    have := button_width_eq size hs0
    omega
  · show button_y size ≤ button_y size + button_height size
    have : button_height size = 20 * size / 192 := pyIntDiv_scale_eq 20 size (by omega) hs0
    omega

/-- C9 witness: the scan-button rectangle is well ordered at size 192. -/
theorem C9_total_witness : (buttonRect 192).wellOrdered :=
  (C9_total emptyEnv 192 (by decide)).2.2.2.2.2

/-! Pixels untouched by a drawing operation keep their previous colour. -/

theorem text_pix_eq (img : Img) (tx ty : ℤ) (f : Font) (c : Color) (x y : ℤ)
    (h : f.mask (x - tx) (y - ty) = false) :
    (img.text tx ty f c).pix x y = img.pix x y := by
  show (if f.mask (x - tx) (y - ty) = true ∧ img.inCanvas x y then c
    else img.pix x y) = img.pix x y
  exact if_neg (by simp [h])

theorem fillRect_pix_eq (img : Img) (r : Rect) (c : Color) (x y : ℤ)
    (h : ¬(r.x0 ≤ x ∧ x ≤ r.x1 ∧ r.y0 ≤ y ∧ y ≤ r.y1)) :
    (img.fillRect r c).pix x y = img.pix x y := by
  show (if r.x0 ≤ x ∧ x ≤ r.x1 ∧ r.y0 ≤ y ∧ y ≤ r.y1 ∧ img.inCanvas x y then c
    else img.pix x y) = img.pix x y
  exact if_neg (fun hc => h ⟨hc.1, hc.2.1, hc.2.2.1, hc.2.2.2.1⟩)

theorem outlineRect_pix_eq (img : Img) (r : Rect) (c : Color) (x y : ℤ)
    (h : ¬(r.x0 ≤ x ∧ x ≤ r.x1 ∧ r.y0 ≤ y ∧ y ≤ r.y1)) :
    (img.outlineRect r c).pix x y = img.pix x y := by
  show (if r.x0 ≤ x ∧ x ≤ r.x1 ∧ r.y0 ≤ y ∧ y ≤ r.y1 ∧
      (x = r.x0 ∨ x = r.x1 ∨ y = r.y0 ∨ y = r.y1) ∧ img.inCanvas x y then c
    else img.pix x y) = img.pix x y
  exact if_neg (fun hc => h ⟨hc.1, hc.2.1, hc.2.2.1, hc.2.2.2.1⟩)

theorem foldl_fill_pix_eq (l : List (ℕ × Rect)) (img : Img) (x y : ℤ)
    (h : ∀ p ∈ l, ¬(p.2.x0 ≤ x ∧ x ≤ p.2.x1 ∧ p.2.y0 ≤ y ∧ y ≤ p.2.y1)) :
    (l.foldl (fun im p => im.fillRect p.2 darkColor) img).pix x y = img.pix x y := by
  induction l generalizing img with
  | nil => rfl
  | cons p rest ih =>
    rw [List.foldl_cons, ih _ (fun q hq => h q (List.mem_cons_of_mem _ hq)),
      fillRect_pix_eq _ _ _ _ _ (h p (List.mem_cons_self _ _))]

theorem button_bounds (size : ℤ) (hs : 0 ≤ size) :
    paper_margin size ≤ button_x size ∧
    button_x size + button_width size ≤ paper_margin size + paper_width size := by
  have hpw := paper_width_nonneg size hs
  have hbw := button_width_eq size hs
  have hbx : button_x size =
      paper_margin size + (paper_width size - button_width size) / 2 := by
    unfold button_x
    rw [Int.fdiv_eq_ediv _ (by omega)]
  rw [hbx, hbw]
  omega

/-- Every pixel on the left or right border column of the canvas keeps the
background colour, for sizes of at least 16 and a glyph that the computed
text position keeps away from the border columns. -/
theorem side_pix_bg (env : FontEnv) (size : ℤ) (h16 : 16 ≤ size)
    (hb0 : 0 ≤ (selectFont env size).bx0)
    (hbsz : (selectFont env size).bx0 + (selectFont env size).bx1 + 8 ≤ size)
    (hmask : ∀ dx dy, (selectFont env size).mask dx dy = true →
      (selectFont env size).bx0 ≤ dx ∧ dx < (selectFont env size).bx1)
    (x y : ℤ) (hx : x = 0 ∨ x = size - 1) :
    (create_receipt_icon env size).pix x y = darkColor := by
  have hs0 : (0 : ℤ) ≤ size := by omega
  have hmeq := paper_margin_eq size hs0
  have hm2 : 2 ≤ paper_margin size := by omega
  have hpwd : paper_width size = size - 2 * paper_margin size := rfl
  have hpw := paper_width_nonneg size hs0
  have hlm := line_margin_nonneg size hs0
  have hbb := button_bounds size hs0
  have htx : text_x size (selectFont env size) =
      (size - ((selectFont env size).bx1 - (selectFont env size).bx0)) / 2 := by
    unfold text_x text_width
    exact Int.fdiv_eq_ediv _ (by omega)
  have hmiss : ∀ t dy : ℤ,
      (t = text_x size (selectFont env size) ∨
       t = text_x size (selectFont env size) + 2) →
      (selectFont env size).mask (x - t) dy = false := by
    intro t dy ht
    cases hmk : (selectFont env size).mask (x - t) dy with
    | false => rfl
    | true =>
      exfalso
      obtain ⟨hlo, hhi⟩ := hmask _ _ hmk
      rcases ht with ht | ht <;> rcases hx with hx | hx <;> omega
  show (((drawBase size).text (text_x size (selectFont env size) + 2)
      (text_y size (selectFont env size) + 2) (selectFont env size)
      shadowColor).text (text_x size (selectFont env size))
      (text_y size (selectFont env size)) (selectFont env size) blueColor).pix
      x y = darkColor
  rw [text_pix_eq _ _ _ _ _ _ _ (hmiss _ _ (Or.inl rfl)),
    text_pix_eq _ _ _ _ _ _ _ (hmiss _ _ (Or.inr rfl))]
  have hbtn : ¬((buttonRect size).x0 ≤ x ∧ x ≤ (buttonRect size).x1 ∧
      (buttonRect size).y0 ≤ y ∧ y ≤ (buttonRect size).y1) := by
    intro hc
    obtain ⟨h1, h2, _, _⟩ := hc
    have h1' : button_x size ≤ x := h1
    have h2' : x ≤ button_x size + button_width size := h2
    rcases hx with hx | hx <;> omega
  have hlines : ∀ p ∈ lineRects size,
      ¬(p.2.x0 ≤ x ∧ x ≤ p.2.x1 ∧ p.2.y0 ≤ y ∧ y ≤ p.2.y1) := by
    intro p hp hc
    obtain ⟨_, _, hr⟩ := linesGo_sound size (List.range 6) p.1 p.2 hp
    have hlw := line_width_bounds size p.1 hs0
    have hfull : line_width_full size = paper_width size - 2 * line_margin size := rfl
    obtain ⟨h1, h2, _, _⟩ := hc
    rw [hr] at h1 h2
    have h1' : paper_margin size + line_margin size ≤ x := h1
    have h2' : x ≤ paper_margin size + line_margin size + line_width size p.1 := h2
    rcases hx with hx | hx <;> omega
  show (((lineRects size).foldl (fun im p => im.fillRect p.2 darkColor)
      ((Img.new size size darkColor).rect (paperRect size) whiteColor
        (some outlineColor))).fillRect (buttonRect size) blueColor).pix x y =
      darkColor
  rw [fillRect_pix_eq _ _ _ _ _ hbtn, foldl_fill_pix_eq _ _ _ _ hlines]
  have hpaper : ¬((paperRect size).x0 ≤ x ∧ x ≤ (paperRect size).x1 ∧
      (paperRect size).y0 ≤ y ∧ y ≤ (paperRect size).y1) := by
    intro hc
    obtain ⟨h1, h2, _, _⟩ := hc
    have h1' : paper_margin size ≤ x := h1
    have h2' : x ≤ paper_margin size + paper_width size := h2
    rcases hx with hx | hx <;> omega
  show (((Img.new size size darkColor).fillRect (paperRect size)
      whiteColor).outlineRect (paperRect size) outlineColor).pix x y = darkColor
  rw [outlineRect_pix_eq _ _ _ _ _ hpaper, fillRect_pix_eq _ _ _ _ _ hpaper]
  rfl

/-- C2 counterexample: at size 8 — a positive size — the bottom-right
corner pixel of the rendered icon is the paper outline colour
(200, 200, 200, 255), not the background colour (26, 26, 30, 255): the
paper margin int(24 * 8 / 192) = 1 lets the paper touch the border. -/
theorem C2_counterexample :
    (create_receipt_icon emptyEnv 8).pix 7 7 = outlineColor ∧
    (create_receipt_icon emptyEnv 8).pix 7 7 ≠ darkColor := by
  constructor <;> decide

/-- C2 (amended): for every size of at least 16 — so that the paper margin
is at least 2 — and every font environment whose selected glyph lies
within its reported horizontal bounding box, starts at a nonnegative
horizontal bearing, and is narrow enough for the centering formula to keep
it off the border columns (bx0 + bx1 + 8 <= size), the four corner pixels
of the rendered canvas equal the background colour (26, 26, 30, 255). -/
theorem C2_corners (env : FontEnv) (size : ℤ) (h16 : 16 ≤ size)
    (hb0 : 0 ≤ (selectFont env size).bx0)
    (hbsz : (selectFont env size).bx0 + (selectFont env size).bx1 + 8 ≤ size)
    (hmask : ∀ dx dy, (selectFont env size).mask dx dy = true →
      (selectFont env size).bx0 ≤ dx ∧ dx < (selectFont env size).bx1) :
    (create_receipt_icon env size).pix 0 0 = darkColor ∧
    (create_receipt_icon env size).pix (size - 1) 0 = darkColor ∧
    (create_receipt_icon env size).pix 0 (size - 1) = darkColor ∧
    (create_receipt_icon env size).pix (size - 1) (size - 1) = darkColor :=
  ⟨side_pix_bg env size h16 hb0 hbsz hmask 0 0 (Or.inl rfl),
   side_pix_bg env size h16 hb0 hbsz hmask (size - 1) 0 (Or.inr rfl),
   side_pix_bg env size h16 hb0 hbsz hmask 0 (size - 1) (Or.inl rfl),
   side_pix_bg env size h16 hb0 hbsz hmask (size - 1) (size - 1) (Or.inr rfl)⟩

/-- C2 witness: the corner property at the requested size 192 under an
environment whose truetype load fails and whose default glyph is the
6 x 11 box glyph. -/
theorem C2_corners_witness :
    (16 ≤ (192 : ℤ)) ∧
    ((create_receipt_icon noArialEnv 192).pix 0 0 = darkColor ∧
     (create_receipt_icon noArialEnv 192).pix (192 - 1) 0 = darkColor ∧
     (create_receipt_icon noArialEnv 192).pix 0 (192 - 1) = darkColor ∧
     (create_receipt_icon noArialEnv 192).pix (192 - 1) (192 - 1) = darkColor) :=
  ⟨by decide, C2_corners noArialEnv 192 (by decide) (by decide) (by decide)
    (fun dx dy h => by
      have h' : 0 ≤ dx ∧ dx < 6 ∧ 0 ≤ dy ∧ dy < 11 := of_decide_eq_true h
      exact ⟨h'.1, h'.2.1⟩)⟩

/-! The driver trace semantics. -/

theorem mkdir_ok (fs : FS) :
    ∃ fs1 : FS, stepFS fs (Event.makedirs "public/icons" true) = Except.ok fs1 ∧
      "public/icons" ∈ fs1.dirs ∧ fs1.files = fs.files := by
  by_cases hd : "public/icons" ∈ fs.dirs
  · exact ⟨fs, by simp [stepFS, hd], hd, rfl⟩
  · exact ⟨⟨"public/icons" :: fs.dirs, fs.files⟩, by simp [stepFS, hd],
      List.mem_cons_self _ _, rfl⟩

theorem save_ok (fs : FS) (img : Img) (p fmt : String)
    (hp : parentDir p ∈ fs.dirs) :
    stepFS fs (Event.save img p fmt) =
      Except.ok ⟨fs.dirs, (p, fmt) :: fs.files⟩ := by
  simp [stepFS, hp]

theorem runEvents_cons (fs fs' : FS) (e : Event) (es : List Event)
    (h : stepFS fs e = Except.ok fs') :
    runEvents fs (e :: es) = runEvents fs' es := by
  simp [runEvents, h]

/-- C7: the driver first ensures public/icons exists — creating it when
absent and succeeding silently when it is already present — then renders
and saves icon-192.png followed by icon-512.png as PNG under those fixed
relative paths, and the completion message is the last event, after both
writes; from any initial filesystem the whole trace runs without error and
afterwards both files exist. -/
theorem C7_driver_trace (env : FontEnv) (fs : FS) :
    mainEvents env =
      [Event.makedirs "public/icons" true,
       Event.save (create_receipt_icon env 192) "public/icons/icon-192.png" "PNG",
       Event.save (create_receipt_icon env 512) "public/icons/icon-512.png" "PNG",
       Event.message "Icons created successfully!"] ∧
    ∃ fs' : FS, runEvents fs (mainEvents env) = Except.ok fs' ∧
      ("public/icons/icon-192.png", "PNG") ∈ fs'.files ∧
      ("public/icons/icon-512.png", "PNG") ∈ fs'.files ∧
      "public/icons" ∈ fs'.dirs := by
  refine ⟨rfl, ?_⟩
  obtain ⟨fs1, h1, hd1, _⟩ := mkdir_ok fs
  have hpd1 : parentDir "public/icons/icon-192.png" = "public/icons" := by decide
  have hpd2 : parentDir "public/icons/icon-512.png" = "public/icons" := by decide
  have h2 := save_ok fs1 (create_receipt_icon env 192)
    "public/icons/icon-192.png" "PNG" (by rw [hpd1]; exact hd1)
  have h3 := save_ok ⟨fs1.dirs, ("public/icons/icon-192.png", "PNG") :: fs1.files⟩
    (create_receipt_icon env 512) "public/icons/icon-512.png" "PNG"
    (by rw [hpd2]; exact hd1)
  refine ⟨⟨fs1.dirs, ("public/icons/icon-512.png", "PNG") ::
      ("public/icons/icon-192.png", "PNG") :: fs1.files⟩, ?_, ?_, ?_, hd1⟩
  · show runEvents fs (mainEvents env) = _
    simp only [mainEvents]
    rw [runEvents_cons _ _ _ _ h1, runEvents_cons _ _ _ _ h2,
      runEvents_cons _ _ _ _ h3]
    simp [runEvents, stepFS]
  · exact List.mem_cons_of_mem _ (List.mem_cons_self _ _)
  · exact List.mem_cons_self _ _
